import Mathlib

/-!
Verification of the ENS resolution/ownership layer (`ens/main.py`) and the
receipt-polling loop (`web3/eth.py`).

This file shallowly embeds the name-resolution and ownership state machine of
the `ens` package, together with `Eth.wait_for_transaction_receipt`, and proves
the specified properties about them.

Modelling conventions:

* Python strings are Lean `String`s; `str.split('.')` and `'.'.join(...)` are
  embedded at the character-list level (`List.splitOn`/`List.intercalate`) so
  that their algebra is available.
* The external collaborators (the JSON-RPC client, the ABI codec, `eth_utils`
  helpers such as `to_checksum_address`, and the on-chain registry/resolver
  contracts) are a record of functions, `Env`.  Read calls are total; the
  `supportsInterface` probe call may fail (the probed contract may not
  implement the function), which is the one failure mode the embedded code
  inspects.
* keccak256 is abstracted as a free (hence injective) constructor: a
  `LabelHash` wraps the label, a `NodeHash` is the recursive namehash tree.
* Python `None` is `Option.none`; a tri-state optional parameter
  (`default` sentinel / explicit `None` / a value) is `PyArg`.
* Raised exceptions are `Except.error` values of type `Err`; transactions
  submitted through the RPC collaborator are accumulated in a `List Tx` log
  (submitting a transaction does not mutate the modelled chain state within a
  single call, matching the code, which never re-reads what it just wrote
  except across separate top-level operations).
-/

/-! ## Python-style string splitting and joining on `'.'` -/

/-- Python `name.split('.')`, embedded at the character level. -/
def pySplitDot (s : String) : List String :=
  (s.toList.splitOn '.').map (fun cs => String.mk cs)

/-- Python `'.'.join(labels)`, embedded at the character level. -/
def pyJoinDot (labels : List String) : String :=
  String.mk (List.intercalate ['.'] (labels.map String.toList))

theorem pySplitDot_ne_nil (s : String) : pySplitDot s ≠ [] := by
  simp [pySplitDot, List.splitOn]
  exact List.splitOnP_ne_nil _ _

theorem mem_splitOnP_not_p {α : Type} (p : α → Bool) :
    ∀ (l : List α) (xs : List α), xs ∈ l.splitOnP p → ∀ a ∈ xs, ¬ p a := by
  intro l
  induction l with
  | nil =>
    intro xs hxs a ha
    simp [List.splitOnP_nil] at hxs
    subst hxs
    simp at ha
  | cons c l ih =>
    intro xs hxs a ha
    rw [List.splitOnP_cons] at hxs
    by_cases hc : p c
    · rw [if_pos hc] at hxs
      rcases List.mem_cons.mp hxs with h | h
      · subst h; simp at ha
      · exact ih xs h a ha
    · rw [if_neg hc] at hxs
      obtain ⟨hd, tl, hsplit⟩ := List.exists_cons_of_ne_nil (List.splitOnP_ne_nil p l)
      rw [hsplit] at hxs
      simp only [List.modifyHead] at hxs
      rcases List.mem_cons.mp hxs with h | h
      · subst h
        rcases List.mem_cons.mp ha with h' | h'
        · subst h'; exact hc
        · exact ih hd (hsplit ▸ List.mem_cons_self _ _) a h'
      · exact ih xs (hsplit ▸ List.mem_cons_of_mem _ h) a ha

theorem mem_splitOn_not_mem {α : Type} [DecidableEq α] (c : α) (l : List α)
    (xs : List α) (hxs : xs ∈ l.splitOn c) : c ∉ xs := by
  intro hc
  have := mem_splitOnP_not_p (· == c) l xs hxs c hc
  simp at this

/-- The labels produced by `pySplitDot` never contain a dot. -/
theorem mem_pySplitDot_no_dot (s : String) (lbl : String) (h : lbl ∈ pySplitDot s) :
    '.' ∉ lbl.toList := by
  simp only [pySplitDot, List.mem_map] at h
  obtain ⟨cs, hcs, rfl⟩ := h
  exact mem_splitOn_not_mem '.' s.toList cs hcs

theorem toList_mk (cs : List Char) : (String.mk cs).toList = cs := rfl

theorem mk_toList (s : String) : String.mk s.toList = s := rfl

/-- Splitting is the left inverse of joining, on label lists that are nonempty
and dot-free (as those produced by `pySplitDot` are). -/
theorem pySplitDot_pyJoinDot (ls : List String) (hne : ls ≠ [])
    (hdot : ∀ l ∈ ls, '.' ∉ l.toList) : pySplitDot (pyJoinDot ls) = ls := by
  unfold pySplitDot pyJoinDot
  rw [toList_mk]
  rw [List.splitOn_intercalate (ls.map String.toList) '.' ?nodot ?nonnil]
  case nodot =>
    intro l hl
    simp only [List.mem_map] at hl
    obtain ⟨s, hs, rfl⟩ := hl
    exact hdot s hs
  case nonnil => simpa using hne
  simp only [List.map_map]
  have : (fun cs => String.mk cs) ∘ String.toList = id := by
    funext s; exact mk_toList s
  rw [this, List.map_id]

/-! ## `ENS.parent` (static method, `ens/main.py`) -/

namespace ENS

/-- `ENS.parent`: the parent of an ENS name — all labels except the first
(most specific) joined by dots; the empty string when there is no parent. -/
def parent (name : String) : String :=
  if name = "" then ""
  else
    let labels := pySplitDot name
    if labels.length = 1 then "" else pyJoinDot labels.tail

end ENS

/-- Well-founded measure for the ancestor walks: number of labels, with the
empty (root-sentinel) name measuring `0`. -/
def nameDepth (s : String) : Nat :=
  if s = "" then 0 else (pySplitDot s).length

theorem nameDepth_parent_lt (name : String) (h : name ≠ "") :
    nameDepth (ENS.parent name) < nameDepth name := by
  have hdepth : nameDepth name = (pySplitDot name).length := by
    simp [nameDepth, h]
  have hpos : 0 < (pySplitDot name).length :=
    List.length_pos.mpr (pySplitDot_ne_nil name)
  have h0 : nameDepth "" = 0 := by simp [nameDepth]
  unfold ENS.parent
  rw [if_neg h]
  simp only
  by_cases hlen : (pySplitDot name).length = 1
  · rw [if_pos hlen, h0, hdepth]
    omega
  · rw [if_neg hlen]
    have hge2 : 2 ≤ (pySplitDot name).length := by omega
    by_cases hemp : pyJoinDot (pySplitDot name).tail = ""
    · rw [hemp, h0, hdepth]
      omega
    · have htail_ne : (pySplitDot name).tail ≠ [] := by
        intro hnil
        have := List.length_tail (pySplitDot name)
        rw [hnil] at this
        simp at this
        omega
      have hsplit : pySplitDot (pyJoinDot (pySplitDot name).tail) =
          (pySplitDot name).tail := by
        apply pySplitDot_pyJoinDot _ htail_ne
        intro l hl
        exact mem_pySplitDot_no_dot name l (List.mem_of_mem_tail hl)
      rw [nameDepth, if_neg hemp, hsplit, List.length_tail, hdepth]
      omega

/-! ## Data model -/

/-- An Ethereum address, as the source handles it: a hex string (checksummed
unless stated otherwise).  The zero address is `EMPTY_ADDR_HEX`. -/
abbrev Address := String

/-- `ens.constants.EMPTY_ADDR_HEX`: the zero address. -/
def EMPTY_ADDR_HEX : Address := "0x0000000000000000000000000000000000000000"

/-- `ens.constants.EXTENDED_RESOLVER_INTERFACE_ID` (ENSIP-10 wildcard
resolution). -/
def EXTENDED_RESOLVER_INTERFACE_ID : String := "0x9061b923"

/-- `ens.constants.GET_TEXT_INTERFACE_ID` (text records; the id named in the
`get_text` docstring in `ens/main.py`). -/
def GET_TEXT_INTERFACE_ID : String := "0x59d1d43c"

/-- `ens.constants.REVERSE_REGISTRAR_DOMAIN`: the fixed suffix domain of
reverse-resolution pseudo-names. -/
def REVERSE_REGISTRAR_DOMAIN : String := "addr.reverse"

/-- The hash of one label (`labelhash`).  keccak256 is abstracted as the free
constructor, which keeps exactly the property the code relies on:
injectivity. -/
structure LabelHash where
  label : String
deriving DecidableEq, Repr

/-- Modelled from the spec: `label_to_hash` (`ens.utils`, not under `src/`) —
the deterministic one-way hash of a single label, position-independent. -/
def label_to_hash (label : String) : LabelHash := ⟨label⟩

/-- A registry node hash.  `root` is the all-zero hash of the empty name;
`node p l` stands for `keccak(p ++ l)`, with keccak abstracted as the free
constructor. -/
inductive NodeHash where
  | root : NodeHash
  | node (parent : NodeHash) (label : LabelHash) : NodeHash
deriving DecidableEq, Repr

/-- Modelled from the spec: `normal_name_to_hash` (`ens.utils`, not under
`src/`) — the recursive namehash: the empty name hashes to the zero value,
and `nameHash(name) = hash(nameHash(parent(name)) || labelHash(firstLabel))`,
i.e. the labels are folded in from the least-specific end. -/
def normal_name_to_hash (name : String) : NodeHash :=
  if name = "" then .root
  else (pySplitDot name).foldr (fun label acc => .node acc (label_to_hash label)) .root

/-- Raised exceptions.  `rpc` is a failure coming back from the RPC
collaborator (e.g. `BadFunctionCallOutput` when probing a contract that does
not implement the probed function); the rest are the `ens.exceptions` /
`web3.exceptions` classes raised by the embedded code. -/
inductive Err where
  | rpc (msg : String)
  | UnsupportedFunction (msg : String)
  | ResolverNotFound (msg : String)
  | UnauthorizedError (msg : String)
  | AddressMismatch (msg : String)
  | UnownedName (msg : String)
  | ValueError (msg : String)
  | TimeExhausted (msg : String)
deriving DecidableEq, Repr

/-- A value decoded from a resolver read call: a single decoded value is
unwrapped to a string, several become a tuple
(cf. `_decode_ensip10_resolve_data`). -/
inductive Value where
  | str (s : String)
  | tuple (vs : List String)
deriving DecidableEq, Repr

/-- A web3 contract handle: its on-chain address and the `repr`s of the
functions of its (locally configured) ABI, which is what
`_resolver_supports_interface` inspects via `all_functions()`. -/
structure Contract where
  address : Option Address
  fnReprs : List String
deriving DecidableEq, Repr

/-- A transaction submitted through the RPC collaborator (`.transact(...)`).
`sender` is `transact['from']`. -/
inductive Tx where
  | setSubnodeOwner (parentNode : NodeHash) (label : LabelHash)
      (owner : Option Address) (sender : Option Address)
  | setResolver (node : NodeHash) (resolver : Option Value) (sender : Option Address)
  | setAddr (resolverAddr : Option Address) (node : NodeHash) (addr : Address)
      (sender : Option Address)
  | setName (name : String) (sender : Option Address)
deriving DecidableEq, Repr

/-- A tri-state Python optional argument: not passed (the `default` sentinel
object), passed `None`, or passed a value. -/
inductive PyArg (α : Type) where
  | dflt : PyArg α
  | pyNone : PyArg α
  | val (a : α) : PyArg α
deriving DecidableEq, Repr

/-- The external collaborators of the core: the on-chain registry and resolver
contracts as read through the RPC client, the ABI codec, the `eth_utils`
address helpers and the account-management collaborator.  All reads are
total; the `supportsInterface` probe is the one call whose failure the
embedded code can observe (the probed contract may lack the function). -/
structure Env where
  /-- `ens.utils.normalize_name` on a nonempty name (the canonical per-label
  text normalization; its algorithm is out of scope, only its contract). -/
  normalize : String → String
  /-- `eth_utils.is_address`. -/
  is_address : String → Bool
  /-- `eth_utils.to_checksum_address`. -/
  to_checksum_address : String → String
  /-- `eth_utils.is_checksum_address`. -/
  is_checksum_address : String → Bool
  /-- registry read `self.ens.caller.resolver(node)`. -/
  registryResolver : NodeHash → Address
  /-- registry read `self.ens.caller.owner(node)`. -/
  registryOwner : NodeHash → Address
  /-- `repr`s of the functions of `abis.RESOLVER`. -/
  resolverAbiReprs : List String
  /-- `repr`s of the functions of `abis.REVERSE_RESOLVER`. -/
  reverseResolverAbiReprs : List String
  /-- probe read `resolver.caller.supportsInterface(interface_id)`; may fail. -/
  supportsInterfaceCall : Option Address → String → Except Err Bool
  /-- direct resolver read `getattr(resolver.functions, fn_name)(node).call()`. -/
  resolverCall : Option Address → String → NodeHash → String
  /-- resolver read `r.caller.text(node, key)`. -/
  resolverText : Option Address → NodeHash → String → String
  /-- ABI codec `extended_resolver.encodeABI(fn_name, [node])`. -/
  encodeABI : String → NodeHash → List Nat
  /-- extended read `extended_resolver.caller.resolve(dns_name, calldata)`. -/
  extendedResolve : Option Address → List Nat → List Nat → List Nat
  /-- ABI codec `self.w3.codec.decode_abi(output_types, data)`. -/
  decode_abi : List String → List Nat → List String
  /-- `get_abi_output_types(func.abi)` for the named resolver function. -/
  abiOutputTypes : String → List String
  /-- the caller's controlled accounts, `self.w3.eth.accounts`. -/
  accounts : List Address

/-! ## `ens.utils` helpers used by `ens/main.py` (not under `src/`) -/

/-- Modelled from the spec: `is_empty_name` (`ens.utils`, not under `src/`) —
whether the candidate is the empty name, the walk-terminating root
sentinel. -/
def is_empty_name (name : String) : Bool :=
  name = ""

/-- Modelled from the spec: `is_none_or_zero_address` (`ens.utils`, not under
`src/`) — a missing, empty ("falsy") or all-zero address, the "not set"
sentinel. -/
def is_none_or_zero_address (addr : Option Address) : Bool :=
  match addr with
  | none => true
  | some a => a = "" || a = EMPTY_ADDR_HEX

/-- Modelled from the spec: `normalize_name` (`ens.utils`, not under `src/`) —
applies the canonical per-label normalization (the out-of-scope collaborator
`Env.normalize`) and passes falsy input through unchanged. -/
def normalize_name (env : Env) (name : String) : String :=
  if name = "" then "" else env.normalize name

/-- `ENS.namehash` / modelled from the spec: `raw_name_to_hash` (`ens.utils`,
not under `src/`) — normalize, then hash. -/
def raw_name_to_hash (env : Env) (name : String) : NodeHash :=
  normal_name_to_hash (normalize_name env name)

/-- Modelled from the spec: `address_to_reverse_domain` (`ens.utils`, not
under `src/`) — the reverse-lookup pseudo-domain: the lowercase hex address
without its `0x` prefix, under the fixed reverse-registrar suffix domain. -/
def address_to_reverse_domain (address : Address) : String :=
  let hexPart := if ['0','x'].isPrefixOf address.toList then (address.toList.drop 2)
                 else address.toList
  String.mk (hexPart.map Char.toLower) ++ "." ++ REVERSE_REGISTRAR_DOMAIN

/-- Modelled from the spec: `ens_encode_name` (`ens.utils`, not under `src/`)
— the ENSIP-10 wire encoding: length-byte + label-bytes chunks, terminated by
a zero byte; the empty name encodes to the bare terminator. -/
def ens_encode_name (name : String) : List Nat :=
  if is_empty_name name then [0]
  else (pySplitDot name).foldr
    (fun label acc => label.toList.length :: label.toList.map Char.toNat ++ acc) [0]

/-- Modelled from the spec: `address_in` (`ens.utils`, not under `src/`) —
whether the target account is among the caller's controlled accounts. -/
def address_in (account : Option Address) (accounts : List Address) : Bool :=
  match account with
  | none => false
  | some a => accounts.contains a

/-- Python `old_owner or owner` on optional address values (`None` and the
empty string are falsy). -/
def pyOrAddr (a b : Option Address) : Option Address :=
  match a with
  | some s => if s = "" then b else some s
  | none => b

/-! ## ResolverLocator (`ENS._get_resolver`, `ens/main.py`) -/

namespace ENS

/-- `ENS._type_aware_resolver`: wrap the located address in the reverse
resolver contract for `name` lookups, in the plain resolver contract
otherwise. -/
def _type_aware_resolver (env : Env) (address : Address) (func : String) : Contract :=
  if func = "name" then ⟨some address, env.reverseResolverAbiReprs⟩
  else ⟨some address, env.resolverAbiReprs⟩

/-- The `while True` loop of `ENS._get_resolver`, one recursive step per
iteration.  `fuel` bounds the remaining iterations; the caller supplies one
more than the number of labels, which the walk can never exhaust
(`_get_resolver_fuel_eq`), so the `0` case is unreachable. -/
def _get_resolver_fuel (env : Env) (fn_name : String) :
    Nat → String → Option Contract × String
  | 0, current_name => (none, current_name)
  | fuel + 1, current_name =>
    if is_empty_name current_name then
      -- if no resolver found across all iterations, current_name will
      -- eventually be the empty string, which returns here
      (none, current_name)
    else
      let resolver_addr := env.registryResolver (normal_name_to_hash current_name)
      if ¬ is_none_or_zero_address (some resolver_addr) then
        -- if resolver found, return it
        (some (_type_aware_resolver env resolver_addr fn_name), current_name)
      else
        -- set current_name to parent and try again
        _get_resolver_fuel env fn_name fuel (ENS.parent current_name)

/-- `ENS._get_resolver`: starting at the normalized name, look for a resolver,
taking the parent each time the registry's `resolver(node)` entry is zero;
stop at the first non-zero entry, or at the empty name with nothing found. -/
def _get_resolver (env : Env) (current_name : String) (fn_name : String) :
    Option Contract × String :=
  _get_resolver_fuel env fn_name (nameDepth current_name + 1) current_name

end ENS

/-- The candidate chain the locator walks (fuel-bounded as above): the name,
then its successive parents, stopping before the empty name. -/
def ancestors_fuel : Nat → String → List String
  | 0, _ => []
  | fuel + 1, name =>
    if is_empty_name name then []
    else name :: ancestors_fuel fuel (ENS.parent name)

/-- The candidate chain the locator walks: the name, then its successive
parents, stopping before the empty name. -/
def ancestors (name : String) : List String :=
  ancestors_fuel (nameDepth name + 1) name

theorem ancestors_fuel_eq : ∀ f1 f2 name, nameDepth name < f1 → nameDepth name < f2 →
    ancestors_fuel f1 name = ancestors_fuel f2 name := by
  intro f1
  induction f1 with
  | zero => intro f2 name h1 _; omega
  | succ f ih =>
    intro f2 name h1 h2
    obtain ⟨g, rfl⟩ : ∃ g, f2 = g + 1 := ⟨f2 - 1, by omega⟩
    simp only [ancestors_fuel]
    by_cases he : is_empty_name name
    · rw [if_pos he, if_pos he]
    · rw [if_neg he, if_neg he]
      have hd := nameDepth_parent_lt name (by simpa [is_empty_name] using he)
      rw [ih g (ENS.parent name) (by omega) (by omega)]

theorem ancestors_cons (name : String) (h : ¬ is_empty_name name) :
    ancestors name = name :: ancestors (ENS.parent name) := by
  have hd := nameDepth_parent_lt name (by simpa [is_empty_name] using h)
  show ancestors_fuel (nameDepth name + 1) name = _
  rw [show nameDepth name + 1 = (nameDepth name) + 1 from rfl]
  simp only [ancestors_fuel, if_neg h]
  rw [ancestors_fuel_eq (nameDepth name) (nameDepth (ENS.parent name) + 1)
    (ENS.parent name) (by omega) (by omega)]
  rfl

theorem _get_resolver_fuel_eq (env : Env) (fn_name : String) :
    ∀ fuel name, nameDepth name < fuel →
    ENS._get_resolver_fuel env fn_name fuel name =
      match (ancestors name).find? (fun a =>
          ! is_none_or_zero_address (some (env.registryResolver (normal_name_to_hash a)))) with
      | some a =>
          (some (ENS._type_aware_resolver env
            (env.registryResolver (normal_name_to_hash a)) fn_name), a)
      | none => (none, "") := by
  intro fuel
  induction fuel with
  | zero => intro name h1; omega
  | succ f ih =>
    intro name h1
    simp only [ENS._get_resolver_fuel]
    by_cases he : is_empty_name name
    · rw [if_pos he]
      have hname : name = "" := by simpa [is_empty_name] using he
      rw [hname, show ancestors "" = [] from rfl]
      simp only [List.find?_nil]
    · rw [if_neg he, ancestors_cons name he]
      simp only [List.find?_cons]
      have hd := nameDepth_parent_lt name (by simpa [is_empty_name] using he)
      by_cases hz :
          is_none_or_zero_address (some (env.registryResolver (normal_name_to_hash name)))
      · rw [if_neg (by simpa using hz), hz]
        simp only [Bool.not_true]
        exact ih (ENS.parent name) (by omega)
      · rw [if_pos (by simpa using hz), eq_false_of_ne_true hz]
        simp only [Bool.not_false]

/-- The locator returns the first ancestor whose registry entry is a non-zero
address, wrapped in the field-appropriate resolver contract; `(none, "")`
when every ancestor's entry is zero. -/
theorem _get_resolver_eq_find (env : Env) (fn_name : String) : ∀ name : String,
    ENS._get_resolver env name fn_name =
      match (ancestors name).find? (fun a =>
          ! is_none_or_zero_address (some (env.registryResolver (normal_name_to_hash a)))) with
      | some a =>
          (some (ENS._type_aware_resolver env
            (env.registryResolver (normal_name_to_hash a)) fn_name), a)
      | none => (none, "") := by
  intro name
  exact _get_resolver_fuel_eq env fn_name (nameDepth name + 1) name (by omega)

/-! ## CapabilityProbe (`_resolver_supports_interface`, `ens/main.py`) -/

/-- `_resolver_supports_interface` (module-level function in `ens/main.py`):
if no function of the resolver contract's ABI has `supportsInterface` in its
`repr`, answer `False` without any call; otherwise issue the
`supportsInterface(interface_id)` read call and return its result.  Note the
source wraps the call in no handler: a failing call propagates. -/
def _resolver_supports_interface (env : Env) (resolver : Contract)
    (interface_id : String) : Except Err Bool :=
  if ¬ (resolver.fnReprs.any fun f => decide ("supportsInterface".toList <:+: f.toList)) then
    .ok false
  else
    env.supportsInterfaceCall resolver.address interface_id

/-! ## ResolutionEngine (`ENS._resolve` and callers, `ens/main.py`) -/

namespace ENS

/-- `ENS._decode_ensip10_resolve_data`: decode the bytes returned by the
extended resolver using the output types of the field's ABI signature; a
single decoded value is unwrapped, several become a tuple. -/
def _decode_ensip10_resolve_data (env : Env) (contract_call_result : List Nat)
    (fn_name : String) : Value :=
  let decoded := env.decode_abi (env.abiOutputTypes fn_name) contract_call_result
  match decoded with
  | [v] => .str v
  | vs => .tuple vs

/-- `to_checksum_address(result) if is_address(result) else result`
(`eth_utils` collaborators; a tuple is never an address). -/
def checksumIfAddress (env : Env) : Value → Value
  | .str s => if env.is_address s then .str (env.to_checksum_address s) else .str s
  | v => v

/-- `ENS._resolve`: normalize, locate the resolver, then dispatch on the
wildcard-resolution probe: extended `resolve(dnsName, calldata)` call when
supported; direct `field(node)` call when the resolver sits exactly at the
queried name (zero/empty results meaning "not set"); `none` when the resolver
sits only at a strict ancestor. -/
def _resolve (env : Env) (name : String) (fn_name : String) :
    Except Err (Option Value) :=
  let normal_name := normalize_name env name
  match ENS._get_resolver env normal_name fn_name with
  | (none, _) => .ok none
  | (some resolver, current_name) =>
    let node := raw_name_to_hash env normal_name
    match _resolver_supports_interface env resolver EXTENDED_RESOLVER_INTERFACE_ID with
    | .error e => .error e
    | .ok true =>
      -- update the resolver abi to the extended resolver abi, then
      -- resolve(ens_encode_name(normal_name), calldata)
      let calldata := env.encodeABI fn_name node
      let contract_call_result :=
        env.extendedResolve resolver.address (ens_encode_name normal_name) calldata
      let result := _decode_ensip10_resolve_data env contract_call_result fn_name
      .ok (some (checksumIfAddress env result))
    | .ok false =>
      if normal_name = current_name then
        let result := env.resolverCall resolver.address fn_name node
        if is_none_or_zero_address (some result) then .ok none
        else .ok (some (checksumIfAddress env (.str result)))
      else .ok none

/-- `ENS.address`: forward resolution of the `addr` field. -/
def address (env : Env) (name : String) : Except Err (Option Value) :=
  _resolve env name "addr"

/-- `ENS.name`: reverse resolution with the forward-match authenticity check.
`self.address(name)` with a falsy reverse result is a plain miss (`None`); a
tuple reverse result can never equal the checksummed address string. -/
def name (env : Env) (address : Address) : Except Err (Option Value) :=
  let reversed_domain := address_to_reverse_domain address
  match _resolve env reversed_domain "name" with
  | .error e => .error e
  | .ok nm =>
    match (match nm with
           | some (.str s) => ENS.address env s
           | _ => .ok none) with
    | .error e => .error e
    | .ok fwd =>
      -- to be absolutely certain of the name, via reverse resolution, the
      -- address must match in the forward resolution
      .ok (if fwd = some (.str (env.to_checksum_address address)) then nm else none)

/-- `ENS.resolver`: the located resolver contract for a name (the matched
ancestor is dropped). -/
def resolver (env : Env) (name : String) : Option Contract :=
  let normal_name := normalize_name env name
  (ENS._get_resolver env normal_name "addr").1

/-- `ENS.owner`: direct registry read of the owner record. -/
def owner (env : Env) (name : String) : Address :=
  env.registryOwner (raw_name_to_hash env name)

/-- `ENS.get_text`: locate the resolver (raising `ResolverNotFound` when there
is none anywhere in the ancestor chain), require the text-record capability
(raising `UnsupportedFunction` otherwise), then read `text(node, key)`. -/
def get_text (env : Env) (name : String) (key : String) : Except Err String :=
  let node := raw_name_to_hash env name
  let normal_name := normalize_name env name
  match ENS.resolver env normal_name with
  | some r =>
    match _resolver_supports_interface env r GET_TEXT_INTERFACE_ID with
    | .error e => .error e
    | .ok true => .ok (env.resolverText r.address node key)
    | .ok false =>
      .error (.UnsupportedFunction
        ("Resolver for name " ++ name ++ " does not support `text` function."))
  | none =>
    .error (.ResolverNotFound
      ("No resolver found for name `" ++ name ++ "`. It is likely the name contains an "
        ++ "unsupported top level domain (tld)."))

end ENS

/-! ## OwnershipManager (`ens/main.py`) -/

/-- Python `resolved == address` between an optional resolution result and an
optional address string (`None == None` is `True`; a tuple never equals a
string). -/
def pyEqAddr (resolved : Option Value) (target : Option Address) : Bool :=
  match resolved, target with
  | none, none => true
  | some (.str s), some a => s = a
  | _, _ => false

namespace ENS

/-- `ENS._assert_control`: raise `UnauthorizedError` unless the account is
among the caller's controlled accounts. -/
def _assert_control (env : Env) (account : Option Address) (name : String)
    (parent_owned : Option String) : Except Err Unit :=
  if ¬ address_in account env.accounts then
    .error (.UnauthorizedError
      ("in order to modify " ++ name ++ ", you must control account "
        ++ (match account with | some a => a | none => "None")
        ++ ", which owns "
        ++ (match parent_owned with
            | some p => if p = "" then name else p
            | none => name)))
  else .ok ()

/-- The `while pieces and is_none_or_zero_address(owner)` loop of
`ENS._first_owner`, one recursive step per iteration; carries the loop
variables `(pieces, owner, unowned, name)`. -/
def _first_owner_go (env : Env) (pieces : List String) (owner : Option Address)
    (unowned : List String) (name : String) : Option Address × List String × String :=
  match pieces with
  | [] => (owner, unowned, name)
  | p :: rest =>
    if is_none_or_zero_address owner then
      let name := pyJoinDot (p :: rest)
      let owner := ENS.owner env name
      if is_none_or_zero_address (some owner) then
        _first_owner_go env rest (some owner) (unowned ++ [p]) name
      else (some owner, unowned, name)
    else (owner, unowned, name)

/-- `ENS._first_owner`: the owner of the deepest owned ancestor, the labels
popped on the way (most-specific first), and the last name whose owner was
read. -/
def _first_owner (env : Env) (name : String) : Option Address × List String × String :=
  _first_owner_go env (pySplitDot (normalize_name env name)) none [] name

/-- The `for label in reversed(unowned)` loop of `ENS._claim_ownership`: one
`setSubnodeOwner` transaction per label, the owned frontier growing by that
label each step. -/
def _claim_ownership_go (env : Env) (owner : Option Address) (sender : Option Address)
    (labels : List String) (owned : String) : List Tx :=
  match labels with
  | [] => []
  | label :: rest =>
    Tx.setSubnodeOwner (raw_name_to_hash env owned) (label_to_hash label) owner sender
      :: _claim_ownership_go env owner sender rest (label ++ "." ++ owned)

/-- `ENS._claim_ownership`: claim the unowned labels in reverse of discovery
order under `transact['from'] = old_owner or owner`. -/
def _claim_ownership (env : Env) (owner : Option Address) (unowned : List String)
    (owned : String) (old_owner : Option Address) : List Tx :=
  _claim_ownership_go env owner (pyOrAddr old_owner owner) unowned.reverse owned

/-- `ENS.setup_owner`: compute the ownership chain, default the target owner,
no-op when nothing would change, otherwise authorize as the super-owner and
claim the unowned chain.  Returns the resulting owner (`none` for the
source's `return None`) and the submitted transactions. -/
def setup_owner (env : Env) (name : String) (new_owner : PyArg Address) :
    Except Err (Option Address × List Tx) :=
  match _first_owner env name with
  | (super_owner, unowned, owned) =>
    let nw : Option Address :=
      match new_owner with
      | .dflt => super_owner
      | .pyNone => some EMPTY_ADDR_HEX
      | .val a => if a = "" then some EMPTY_ADDR_HEX else some (env.to_checksum_address a)
    let current_owner := ENS.owner env name
    if nw = some EMPTY_ADDR_HEX ∧ current_owner = "" then
      .ok (none, [])
    else if some current_owner = nw then
      .ok (some current_owner, [])
    else
      match _assert_control env super_owner name (some owned) with
      | .error e => .error e
      | .ok _ => .ok (nw, _claim_ownership env nw unowned owned super_owner)

/-- `ENS._set_resolver`: default the resolver to the public `resolver.eth`
one, register it in the registry when the current registration differs, and
hand back the resolver contract. -/
def _set_resolver (env : Env) (name : String) (resolver_addr : Option Address)
    (sender : Option Address) : Except Err (Contract × List Tx) :=
  match (if is_none_or_zero_address resolver_addr
         then ENS.address env "resolver.eth"
         else .ok (resolver_addr.map Value.str)) with
  | .error e => .error e
  | .ok ra =>
    let nh := raw_name_to_hash env name
    let txs := if ra ≠ some (.str (env.registryResolver nh))
               then [Tx.setResolver nh ra sender] else []
    .ok (⟨(match ra with | some (.str s) => some s | _ => none),
          env.resolverAbiReprs⟩, txs)

/-- `ENS.setup_address`: set up ownership, authorize, canonicalize the target
address, no-op when the name already resolves to it, otherwise ensure a
resolver and submit `setAddr`.  Returns the `setAddr` transaction (the
source's returned tx hash; `none` for the no-op `return None`) and the full
transaction log. -/
def setup_address (env : Env) (name : String) (address : PyArg Address) :
    Except Err (Option Tx × List Tx) :=
  match setup_owner env name .dflt with
  | .error e => .error e
  | .ok (owner, txs1) =>
    match _assert_control env owner name none with
    | .error e => .error e
    | .ok _ =>
      match ((match address with
             | .pyNone => .ok none
             | .val a =>
               if a = "" ∨ a = EMPTY_ADDR_HEX then .ok none
               else if env.is_checksum_address a then .ok (some a)
               else .error (Err.ValueError "You must supply the address in checksum format")
             | .dflt => .ok owner) : Except Err (Option Address)) with
      | .error e => .error e
      | .ok target =>
        match ENS.address env name with
        | .error e => .error e
        | .ok resolved =>
          if pyEqAddr resolved target then .ok (none, txs1)
          else
            let target' := match target with | none => EMPTY_ADDR_HEX | some a => a
            match _set_resolver env name none owner with
            | .error e => .error e
            | .ok (resolver, txs2) =>
              let tx := Tx.setAddr resolver.address (raw_name_to_hash env name) target' owner
              .ok (some tx, txs1 ++ txs2 ++ [tx])

end ENS

/-! ## `Eth.wait_for_transaction_receipt` (`web3/eth.py`)

The polling loop itself is in `src/web3/eth.py`; the `Timeout` helper it
wraps the loop in lives outside `src/`, so its wall-clock accounting is
modelled from the spec: polls happen at `0, L, 2L, ...` seconds and the
deadline check (which the helper performs when asked to sleep) raises once
the elapsed time exceeds the timeout.  The async variant shares the same
algorithm.  `fetch k` is the collaborator's `getTransactionReceipt` response
at the `k`-th poll: a receipt, or the raised `TransactionNotFound`
(`Except.error ()`). -/

/-- An opaque mined-transaction receipt payload. -/
abbrev TxReceipt := String

namespace Eth

/-- Modelled from the spec: the number of receipt fetches the caller-supplied
deadline admits — fetches happen before sleeps, so attempt `n` (0-based)
exists iff `n * poll_latency ≤ timeout`, i.e. `⌊timeout/poll_latency⌋ + 1`
attempts in all (and a single attempt when the latency is degenerate). -/
def numPolls (timeout poll_latency : ℚ) : Nat :=
  if poll_latency ≤ 0 then 1 else (⌊timeout / poll_latency⌋).toNat + 1

/-- The `while True: try ... except TransactionNotFound: tx_receipt = None`
poll loop, one recursive step per poll; `fuel` is the number of attempts the
deadline still admits. -/
def wait_loop (fetch : Nat → Except Unit TxReceipt) (k : Nat) (fuel : Nat) :
    Except Err TxReceipt :=
  match fuel with
  | 0 => .error (.TimeExhausted "Transaction is not in the chain after the given timeout")
  | fuel' + 1 =>
    match fetch k with
    | .ok r => .ok r
    | .error _ => wait_loop fetch (k + 1) fuel'

/-- `Eth.wait_for_transaction_receipt`: poll for the receipt, treating
`TransactionNotFound` as "not yet mined", sleeping the poll latency between
polls, and raising `TimeExhausted` when the deadline elapses first. -/
def wait_for_transaction_receipt (fetch : Nat → Except Unit TxReceipt)
    (timeout poll_latency : ℚ) : Except Err TxReceipt :=
  wait_loop fetch 0 (numPolls timeout poll_latency)

end Eth

/-! ## Claim theorems -/

/-- C9: for every name string, `parent(name)` returns all labels except the
first (most specific) joined by dots; in particular `parent("") = ""`,
`parent("eth") = ""`, `parent("foo.eth") = "eth"` and
`parent("1.foo.bar.eth") = "foo.bar.eth"`. -/
theorem parent_drops_first_label :
    (∀ name : String, ENS.parent name = pyJoinDot ((pySplitDot name).tail))
    ∧ ENS.parent "" = ""
    ∧ ENS.parent "eth" = ""
    ∧ ENS.parent "foo.eth" = "eth"
    ∧ ENS.parent "1.foo.bar.eth" = "foo.bar.eth" := by
  refine ⟨?_, by decide, by decide, by decide, by decide⟩
  intro name
  unfold ENS.parent
  by_cases h : name = ""
  · subst h
    decide
  · rw [if_neg h]
    simp only
    by_cases hlen : (pySplitDot name).length = 1
    · rw [if_pos hlen]
      obtain ⟨a, ha⟩ := List.length_eq_one.mp hlen
      rw [ha]
      rfl
    · rw [if_neg hlen]

/-- C2: the resolver-locator walk returns the resolver whose registry entry is
the first non-zero address met walking from the name up through successive
parents (wrapped for the requested field), paired with the ancestor at which
it was found; when every ancestor yields a zero address it terminates at the
empty name with `(none, "")`. -/
theorem get_resolver_first_nonzero_ancestor (env : Env) (fn_name name : String) :
    ENS._get_resolver env name fn_name =
      match (ancestors name).find? (fun a =>
          ! is_none_or_zero_address (some (env.registryResolver (normal_name_to_hash a)))) with
      | some a =>
          (some (ENS._type_aware_resolver env
            (env.registryResolver (normal_name_to_hash a)) fn_name), a)
      | none => (none, "") :=
  _get_resolver_eq_find env fn_name name

/-! ## Concrete collaborator environments used by witnesses -/

/-- A baseline collaborator environment: normalization and checksumming are
the identity, the registry is empty (every node reads as the zero address),
probe calls answer `false`, and no accounts are controlled.  Witness
environments override individual fields. -/
def baseEnv : Env where
  normalize := fun s => s
  is_address := fun s => ['0','x'].isPrefixOf s.toList
  to_checksum_address := fun s => s
  is_checksum_address := fun s => ['0','x'].isPrefixOf s.toList
  registryResolver := fun _ => EMPTY_ADDR_HEX
  registryOwner := fun _ => EMPTY_ADDR_HEX
  resolverAbiReprs :=
    ["<Function supportsInterface(bytes4)>", "<Function addr(bytes32)>"]
  reverseResolverAbiReprs :=
    ["<Function supportsInterface(bytes4)>", "<Function name(bytes32)>"]
  supportsInterfaceCall := fun _ _ => .ok false
  resolverCall := fun _ _ _ => ""
  resolverText := fun _ _ _ => ""
  encodeABI := fun _ _ => []
  extendedResolve := fun _ _ _ => []
  decode_abi := fun _ _ => []
  abiOutputTypes := fun _ => ["address"]
  accounts := []

/-- Equality of call outcomes is decidable (needed so witnesses can be checked
by evaluation). -/
instance {ε α : Type} [DecidableEq ε] [DecidableEq α] : DecidableEq (Except ε α) :=
  fun x y =>
    match x, y with
    | .ok a, .ok b =>
      if h : a = b then .isTrue (by rw [h]) else .isFalse (by intro hc; cases hc; exact h rfl)
    | .error a, .error b =>
      if h : a = b then .isTrue (by rw [h]) else .isFalse (by intro hc; cases hc; exact h rfl)
    | .ok _, .error _ => .isFalse (by intro hc; cases hc)
    | .error _, .ok _ => .isFalse (by intro hc; cases hc)

/-- A collaborator environment in which the `supportsInterface` probe call
itself fails (the RPC collaborator raises, e.g. the probed contract reverts
or returns undecodable data). -/
def envProbeFails : Env :=
  { baseEnv with supportsInterfaceCall := fun _ _ => .error (.rpc "execution reverted") }

/-- C1 counterexample: a resolver contract whose ABI does contain a
`supportsInterface`-shaped method, probed in an environment where the
`supportsInterface(interfaceId)` call fails: the failure propagates as a
raised error instead of being treated as "not supported" (`false`), because
`_resolver_supports_interface` wraps the call in no handler. -/
theorem resolver_supports_interface_counterexample :
    _resolver_supports_interface envProbeFails
        ⟨some "0x1234", envProbeFails.resolverAbiReprs⟩ EXTENDED_RESOLVER_INTERFACE_ID
      = .error (.rpc "execution reverted")
    ∧ _resolver_supports_interface envProbeFails
        ⟨some "0x1234", envProbeFails.resolverAbiReprs⟩ EXTENDED_RESOLVER_INTERFACE_ID
      ≠ .ok false := by
  constructor
  · decide
  · decide

/-- C1 (amended): the capability probe returns false immediately when the
resolver's contract interface lacks a supportsInterface-shaped method;
otherwise it issues the supportsInterface(interfaceId) read call and returns
exactly that call's outcome — its boolean result verbatim, and a failure of
that call propagated to the caller as the raised error. -/
theorem resolver_supports_interface_cases (env : Env) (r : Contract) (iid : String) :
    ((r.fnReprs.any fun f => decide ("supportsInterface".toList <:+: f.toList)) = false →
      _resolver_supports_interface env r iid = .ok false)
    ∧ ((r.fnReprs.any fun f => decide ("supportsInterface".toList <:+: f.toList)) = true →
      (∀ b, env.supportsInterfaceCall r.address iid = .ok b →
        _resolver_supports_interface env r iid = .ok b)
      ∧ (∀ e, env.supportsInterfaceCall r.address iid = .error e →
        _resolver_supports_interface env r iid = .error e)) := by
  refine ⟨fun h => ?_, fun h => ⟨fun b hb => ?_, fun e he => ?_⟩⟩
  all_goals unfold _resolver_supports_interface
  all_goals rw [h]
  · simp
  · simp [hb]
  · simp [he]

/-- Witness for C1's amended theorem: both probe branches, and both call
outcomes, at concrete inputs. -/
theorem resolver_supports_interface_cases_witness :
    _resolver_supports_interface baseEnv
        ⟨some "0x1234", ["<Function addr(bytes32)>"]⟩ GET_TEXT_INTERFACE_ID = .ok false
    ∧ _resolver_supports_interface baseEnv
        ⟨some "0x1234", baseEnv.resolverAbiReprs⟩ GET_TEXT_INTERFACE_ID = .ok false
    ∧ _resolver_supports_interface envProbeFails
        ⟨some "0x1234", envProbeFails.resolverAbiReprs⟩ GET_TEXT_INTERFACE_ID
      = .error (.rpc "execution reverted") :=
  ⟨(resolver_supports_interface_cases baseEnv
      ⟨some "0x1234", ["<Function addr(bytes32)>"]⟩ GET_TEXT_INTERFACE_ID).1 (by decide),
   ((resolver_supports_interface_cases baseEnv
      ⟨some "0x1234", baseEnv.resolverAbiReprs⟩ GET_TEXT_INTERFACE_ID).2 (by decide)).1
      false rfl,
   ((resolver_supports_interface_cases envProbeFails
      ⟨some "0x1234", envProbeFails.resolverAbiReprs⟩ GET_TEXT_INTERFACE_ID).2 (by decide)).2
      (.rpc "execution reverted") rfl⟩

/-- The spec's description of the direct (non-wildcard, exact-match) lookup:
call `field(node)` directly on the located resolver; a zero/empty result
means "not set"; canonicalize address results to checksum form.  (Stated from
the spec's words, to be compared with `ENS._resolve`.) -/
def directLookupSpec (env : Env) (r : Contract) (fn_name normal_name : String) : Option Value :=
  let node := raw_name_to_hash env normal_name
  let result := env.resolverCall r.address fn_name node
  if is_none_or_zero_address (some result) then none
  else some (ENS.checksumIfAddress env (.str result))

/-- C3: when the located resolver does not support wildcard resolution,
`_resolve` performs the direct `field(node)` lookup (zero/empty meaning "not
set", addresses checksummed) if the resolver was found exactly at the
normalized name, and returns `none` if it was found only at a strict
ancestor. -/
theorem resolve_without_wildcard_support (env : Env) (name fn_name current : String)
    (r : Contract)
    (hres : ENS._get_resolver env (normalize_name env name) fn_name = (some r, current))
    (hprobe : _resolver_supports_interface env r EXTENDED_RESOLVER_INTERFACE_ID = .ok false) :
    (normalize_name env name = current →
      ENS._resolve env name fn_name =
        .ok (directLookupSpec env r fn_name (normalize_name env name)))
    ∧ (normalize_name env name ≠ current →
      ENS._resolve env name fn_name = .ok none) := by
  constructor
  · intro heq
    unfold ENS._resolve
    dsimp only
    rw [hres]
    dsimp only
    rw [hprobe]
    dsimp only
    rw [if_pos heq]
    unfold directLookupSpec
    dsimp only
    split <;> rfl
  · intro hne
    unfold ENS._resolve
    dsimp only
    rw [hres]
    dsimp only
    rw [hprobe]
    dsimp only
    rw [if_neg hne]

/-- A collaborator environment with one plain (non-wildcard) resolver
registered at `test.eth`, whose `addr` record is a fixed address. -/
def envDirect : Env :=
  { baseEnv with
    registryResolver := fun n =>
      if n = normal_name_to_hash "test.eth" then "0xbe5422d15f39373eb0a97ff8c10fbd0e40e29338"
      else EMPTY_ADDR_HEX
    resolverCall := fun _ fn _ =>
      if fn = "addr" then "0x5b2063246f2191f18f2675cedb8b28102e957458" else "" }

/-- Witness for C3: both branches at concrete inputs — the exact-match direct
lookup, and the ancestor-only miss. -/
theorem resolve_without_wildcard_support_witness :
    ENS._resolve envDirect "test.eth" "addr"
      = .ok (directLookupSpec envDirect
          ⟨some "0xbe5422d15f39373eb0a97ff8c10fbd0e40e29338", envDirect.resolverAbiReprs⟩
          "addr" (normalize_name envDirect "test.eth"))
    ∧ ENS._resolve envDirect "sub.test.eth" "addr" = .ok none :=
  ⟨(resolve_without_wildcard_support envDirect "test.eth" "addr" "test.eth"
      ⟨some "0xbe5422d15f39373eb0a97ff8c10fbd0e40e29338", envDirect.resolverAbiReprs⟩
      (by decide) (by decide)).1 (by decide),
   (resolve_without_wildcard_support envDirect "sub.test.eth" "addr" "test.eth"
      ⟨some "0xbe5422d15f39373eb0a97ff8c10fbd0e40e29338", envDirect.resolverAbiReprs⟩
      (by decide) (by decide)).2 (by decide)⟩

/-- C4: reverse-authenticity — `name(address)` hands back a reverse-resolved
name only when the forward resolution of that name yields exactly the
checksummed original address; any mismatch (or forward miss) makes the whole
lookup return `none`. -/
theorem name_reverse_authenticity (env : Env) (addr : Address) (v : Value)
    (h : ENS.name env addr = .ok (some v)) :
    ∃ s, v = .str s
      ∧ ENS.address env s = .ok (some (.str (env.to_checksum_address addr))) := by
  unfold ENS.name at h
  dsimp only at h
  cases h1 : ENS._resolve env (address_to_reverse_domain addr) "name" with
  | error e => rw [h1] at h; exact absurd h (by simp)
  | ok nm =>
    rw [h1] at h
    dsimp only at h
    cases nm with
    | none => simp at h
    | some val =>
      cases val with
      | tuple vs => simp at h
      | str s =>
        dsimp only at h
        cases h2 : ENS.address env s with
        | error e => rw [h2] at h; exact absurd h (by simp)
        | ok fwd =>
          rw [h2] at h
          dsimp only at h
          by_cases hc : fwd = some (Value.str (env.to_checksum_address addr))
          · rw [if_pos hc] at h
            simp only [Except.ok.injEq, Option.some.injEq] at h
            exact ⟨s, h.symm, by rw [h2, hc]⟩
          · rw [if_neg hc] at h
            simp at h

/-- A collaborator environment in which the reverse record of `0xAb12Cd`
names `alice.eth`, and `alice.eth` forward-resolves back to `0xAb12Cd`. -/
def envReverse : Env :=
  { baseEnv with
    registryResolver := fun n =>
      if n = normal_name_to_hash "ab12cd.addr.reverse" then
        "0xbe5422d15f39373eb0a97ff8c10fbd0e40e29338"
      else if n = normal_name_to_hash "alice.eth" then
        "0x5b2063246f2191f18f2675cedb8b28102e957458"
      else EMPTY_ADDR_HEX
    resolverCall := fun _ fn _ =>
      if fn = "name" then "alice.eth"
      else if fn = "addr" then "0xAb12Cd" else "" }

/-- Witness for C4: a complete reverse resolution whose forward check matches,
so the name is returned and the theorem recovers the matching forward
resolution. -/
theorem name_reverse_authenticity_witness :
    ENS.name envReverse "0xAb12Cd" = .ok (some (.str "alice.eth"))
    ∧ ∃ s, Value.str "alice.eth" = .str s
      ∧ ENS.address envReverse s
          = .ok (some (.str (envReverse.to_checksum_address "0xAb12Cd"))) :=
  ⟨by decide,
   name_reverse_authenticity envReverse "0xAb12Cd" (.str "alice.eth") (by decide)⟩

/-- C6: `get_text(name, key)` raises `UnsupportedFunction` when a resolver is
found but lacks the text-record capability, raises `ResolverNotFound` when no
ancestor of the name has a registered resolver, and otherwise returns the
resolver's `text(node, key)` value. -/
theorem get_text_cases (env : Env) (name key : String) :
    (∀ r, ENS.resolver env (normalize_name env name) = some r →
      (_resolver_supports_interface env r GET_TEXT_INTERFACE_ID = .ok true →
        ENS.get_text env name key
          = .ok (env.resolverText r.address (raw_name_to_hash env name) key))
      ∧ (_resolver_supports_interface env r GET_TEXT_INTERFACE_ID = .ok false →
        ENS.get_text env name key = .error (.UnsupportedFunction
          ("Resolver for name " ++ name ++ " does not support `text` function."))))
    ∧ ((∀ a ∈ ancestors (normalize_name env (normalize_name env name)),
        is_none_or_zero_address (some (env.registryResolver (normal_name_to_hash a))) = true) →
      ENS.get_text env name key = .error (.ResolverNotFound
        ("No resolver found for name `" ++ name ++ "`. It is likely the name contains an "
          ++ "unsupported top level domain (tld)."))) := by
  constructor
  · intro r hr
    constructor
    · intro hp
      unfold ENS.get_text
      dsimp only
      rw [hr]
      dsimp only
      rw [hp]
    · intro hp
      unfold ENS.get_text
      dsimp only
      rw [hr]
      dsimp only
      rw [hp]
  · intro hz
    have hnone : ENS.resolver env (normalize_name env name) = none := by
      unfold ENS.resolver
      dsimp only
      rw [_get_resolver_eq_find]
      rw [List.find?_eq_none.mpr ?_]
      · intro a ha
        simp [hz a ha]
    unfold ENS.get_text
    dsimp only
    rw [hnone]

/-- A collaborator environment with a text-capable resolver registered at
`kv.eth` holding a `url` record. -/
def envText : Env :=
  { baseEnv with
    registryResolver := fun n =>
      if n = normal_name_to_hash "kv.eth" then "0xbe5422d15f39373eb0a97ff8c10fbd0e40e29338"
      else EMPTY_ADDR_HEX
    supportsInterfaceCall := fun _ iid => .ok (iid = GET_TEXT_INTERFACE_ID)
    resolverText := fun _ _ k => if k = "url" then "https://example.invalid" else "" }

/-- Witness for C6: all three outcomes at concrete inputs — a successful text
read, the capability failure, and the no-resolver failure. -/
theorem get_text_cases_witness :
    ENS.get_text envText "kv.eth" "url" = .ok "https://example.invalid"
    ∧ ENS.get_text envDirect "test.eth" "url"
      = .error (.UnsupportedFunction
          "Resolver for name test.eth does not support `text` function.")
    ∧ ENS.get_text baseEnv "nores.eth" "k"
      = .error (.ResolverNotFound
          ("No resolver found for name `nores.eth`. It is likely the name contains an "
            ++ "unsupported top level domain (tld).")) :=
  ⟨by rw [((get_text_cases envText "kv.eth" "url").1
        ⟨some "0xbe5422d15f39373eb0a97ff8c10fbd0e40e29338", envText.resolverAbiReprs⟩
        (by decide)).1 (by decide)]
      decide,
   ((get_text_cases envDirect "test.eth" "url").1
        ⟨some "0xbe5422d15f39373eb0a97ff8c10fbd0e40e29338", envDirect.resolverAbiReprs⟩
        (by decide)).2 (by decide),
   (get_text_cases baseEnv "nores.eth" "k").2 (by decide)⟩

/-- The claim schedule the spec describes: starting from the owned ancestor,
claim each label in the given order, each claim extending the owned frontier
by that label; gives the `(parentName, label)` pair of each subnode claim. -/
def claimedChain : String → List String → List (String × String)
  | _, [] => []
  | owned, l :: ls => (owned, l) :: claimedChain (l ++ "." ++ owned) ls

theorem _claim_ownership_go_eq (env : Env) (owner sender : Option Address) :
    ∀ (labels : List String) (owned : String),
    ENS._claim_ownership_go env owner sender labels owned =
      (claimedChain owned labels).map (fun pl =>
        Tx.setSubnodeOwner (raw_name_to_hash env pl.1) (label_to_hash pl.2) owner sender) := by
  intro labels
  induction labels with
  | nil => intro owned; rfl
  | cons l ls ih =>
    intro owned
    simp only [ENS._claim_ownership_go, claimedChain, List.map_cons]
    rw [ih]

/-- A collaborator environment where `c.eth` is owned (by a controlled
account) and nothing deeper is. -/
def envClaim : Env :=
  { baseEnv with
    registryOwner := fun n =>
      if n = normal_name_to_hash "c.eth" then "0xcccccccccccccccccccccccccccccccccccccccc"
      else EMPTY_ADDR_HEX
    accounts := ["0xcccccccccccccccccccccccccccccccccccccccc"] }

/-- C5: the subnode claims are submitted in reverse of `_first_owner`'s
discovery order — least-specific unowned label first, each claim's parent
node being the frontier extended by all previously claimed labels; e.g. for
target `a.b.c.eth` with owned ancestor `c.eth` the claims are `b` under
`c.eth`, then `a` under `b.c.eth`. -/
theorem claim_ownership_ordering :
    (∀ (env : Env) (owner : Option Address) (unowned : List String) (owned : String)
        (old_owner : Option Address),
      ENS._claim_ownership env owner unowned owned old_owner =
        (claimedChain owned unowned.reverse).map (fun pl =>
          Tx.setSubnodeOwner (raw_name_to_hash env pl.1) (label_to_hash pl.2)
            owner (pyOrAddr old_owner owner)))
    ∧ ENS._first_owner envClaim "a.b.c.eth"
        = (some "0xcccccccccccccccccccccccccccccccccccccccc", ["a", "b"], "c.eth")
    ∧ ENS.setup_owner envClaim "a.b.c.eth" .dflt
        = .ok (some "0xcccccccccccccccccccccccccccccccccccccccc",
            [Tx.setSubnodeOwner (raw_name_to_hash envClaim "c.eth") (label_to_hash "b")
              (some "0xcccccccccccccccccccccccccccccccccccccccc")
              (some "0xcccccccccccccccccccccccccccccccccccccccc"),
             Tx.setSubnodeOwner (raw_name_to_hash envClaim "b.c.eth") (label_to_hash "a")
              (some "0xcccccccccccccccccccccccccccccccccccccccc")
              (some "0xcccccccccccccccccccccccccccccccccccccccc")]) := by
  refine ⟨?_, by decide, by decide⟩
  intro env owner unowned owned old_owner
  unfold ENS._claim_ownership
  exact _claim_ownership_go_eq env owner (pyOrAddr old_owner owner) unowned.reverse owned

/-- Whether a transaction is a registry subnode-ownership claim. -/
def Tx.isSubnodeClaim : Tx → Bool
  | .setSubnodeOwner _ _ _ _ => true
  | _ => false

theorem _claim_ownership_go_subnode (env : Env) (o s : Option Address) :
    ∀ (labels : List String) (owned : String) (tx : Tx),
      tx ∈ ENS._claim_ownership_go env o s labels owned → tx.isSubnodeClaim = true := by
  intro labels
  induction labels with
  | nil => intro owned tx htx; simp [ENS._claim_ownership_go] at htx
  | cons l ls ih =>
    intro owned tx htx
    simp only [ENS._claim_ownership_go, List.mem_cons] at htx
    rcases htx with h | h
    · subst h; rfl
    · exact ih (l ++ "." ++ owned) tx h

/-- `setup_owner` submits only subnode-ownership claims (never `setResolver`
or `setAddr`). -/
theorem setup_owner_txs_subnode (env : Env) (name : String) (arg : PyArg Address)
    (r : Option Address × List Tx) (h : ENS.setup_owner env name arg = .ok r) :
    ∀ tx ∈ r.2, tx.isSubnodeClaim = true := by
  unfold ENS.setup_owner at h
  split at h
  rename_i super_owner unowned owned heq
  dsimp only at h
  split at h
  · cases h
    intro tx htx
    simp at htx
  · split at h
    · cases h
      intro tx htx
      simp at htx
    · split at h
      · cases h
      · cases h
        intro tx htx
        exact _claim_ownership_go_subnode env _ _ _ _ tx htx

/-- C7: idempotence of `setup_address` — when the name already resolves to the
target address (and ownership setup succeeds with a controlled owner),
`setup_address` returns `None` and the only transactions ever submitted are
`setup_owner`'s subnode claims: no `setResolver`, no `setAddr`. -/
theorem setup_address_idempotent (env : Env) (name a : String) (ow : Address) (txs : List Tx)
    (howner : ENS.setup_owner env name .dflt = .ok (some ow, txs))
    (hctl : address_in (some ow) env.accounts = true)
    (ha : a ≠ "" ∧ a ≠ EMPTY_ADDR_HEX ∧ env.is_checksum_address a = true)
    (hres : ENS.address env name = .ok (some (.str a))) :
    ENS.setup_address env name (.val a) = .ok (none, txs)
    ∧ ∀ tx ∈ txs, tx.isSubnodeClaim = true := by
  constructor
  · unfold ENS.setup_address
    rw [howner]
    dsimp only
    have hassert : ENS._assert_control env (some ow) name none = .ok () := by
      unfold ENS._assert_control
      rw [hctl]
      simp
    rw [hassert]
    dsimp only
    rw [if_neg (by rintro (hc | hc); exact ha.1 hc; exact ha.2.1 hc)]
    rw [if_pos ha.2.2]
    dsimp only
    rw [hres]
    dsimp only
    rw [if_pos (by simp [pyEqAddr])]
  · exact setup_owner_txs_subnode env name .dflt (some ow, txs) howner

/-- A collaborator environment where `idem.eth` is owned by a controlled
account and already resolves to a fixed non-zero address. -/
def envIdem : Env :=
  { baseEnv with
    registryOwner := fun n =>
      if n = normal_name_to_hash "idem.eth" then "0xaaaaaaaaaaaaaaaaaaaaaaaaaaaaaaaaaaaaaaaa"
      else EMPTY_ADDR_HEX
    registryResolver := fun n =>
      if n = normal_name_to_hash "idem.eth" then "0xbe5422d15f39373eb0a97ff8c10fbd0e40e29338"
      else EMPTY_ADDR_HEX
    resolverCall := fun _ fn _ =>
      if fn = "addr" then "0xdddddddddddddddddddddddddddddddddddddddd" else ""
    accounts := ["0xaaaaaaaaaaaaaaaaaaaaaaaaaaaaaaaaaaaaaaaa"] }

/-- Witness for C7: a second `setup_address` call with the already-set address
is a no-op — result `None`, no transactions at all. -/
theorem setup_address_idempotent_witness :
    ENS.setup_address envIdem "idem.eth" (.val "0xdddddddddddddddddddddddddddddddddddddddd")
      = .ok (none, [])
    ∧ ∀ tx ∈ ([] : List Tx), tx.isSubnodeClaim = true :=
  setup_address_idempotent envIdem "idem.eth" "0xdddddddddddddddddddddddddddddddddddddddd"
    "0xaaaaaaaaaaaaaaaaaaaaaaaaaaaaaaaaaaaaaaaa" []
    (by decide) (by decide) ⟨by decide, by decide, by decide⟩ (by decide)

/-- C10 counterexample: with `new_owner` explicitly passed as `None` and the
registry's owner read returning the zero address (which is what the contract
read yields for an unowned name — a truthy string in the source), `setup_owner`
takes the `current_owner == new_owner` branch and returns the zero-address
string, not `None` (though it still submits no transaction and performs no
authorization check). -/
theorem setup_owner_zero_owner_counterexample :
    ENS.setup_owner baseEnv "x.eth" .pyNone = .ok (some EMPTY_ADDR_HEX, [])
    ∧ (some EMPTY_ADDR_HEX : Option Address) ≠ none := by
  exact ⟨by decide, by decide⟩

/-- A collaborator environment whose owner reads come back falsy (the empty
string), the one shape that does satisfy the source's `not current_owner`. -/
def envFalsyOwner : Env :=
  { baseEnv with registryOwner := fun _ => "" }

/-- C10 (amended): when `new_owner` is explicitly passed as None/empty
(requesting the zero address) and the name's current owner reads as
zero/falsy, `setup_owner` issues no transaction and never performs the
authorization check (the outcome is independent of the controlled-account
set), leaving the registry unchanged; it returns `None` when the owner read
is falsy (empty), and returns the zero-address owner itself when the read is
the zero-address string. -/
theorem setup_owner_clear_unowned_noop (env : Env) (name : String) (arg : PyArg Address)
    (harg : arg = .pyNone ∨ arg = .val "") :
    (ENS.owner env name = "" →
      ENS.setup_owner env name arg = .ok (none, []))
    ∧ (ENS.owner env name = EMPTY_ADDR_HEX →
      ENS.setup_owner env name arg = .ok (some EMPTY_ADDR_HEX, [])) := by
  have hzero : (if ("" : String) = "" then some EMPTY_ADDR_HEX
                else some (env.to_checksum_address "")) = some EMPTY_ADDR_HEX := by simp
  rcases harg with rfl | rfl
  · constructor
    · intro hcur
      unfold ENS.setup_owner
      split
      rename_i so un ow heq
      dsimp only
      rw [if_pos ⟨rfl, hcur⟩]
    · intro hcur
      unfold ENS.setup_owner
      split
      rename_i so un ow heq
      dsimp only
      rw [hcur]
      rw [if_neg (by rintro ⟨h1, h2⟩; exact absurd h2 (by decide))]
      rw [if_pos rfl]
  · constructor
    · intro hcur
      unfold ENS.setup_owner
      split
      rename_i so un ow heq
      dsimp only
      rw [hzero]
      rw [if_pos ⟨rfl, hcur⟩]
    · intro hcur
      unfold ENS.setup_owner
      split
      rename_i so un ow heq
      dsimp only
      rw [hzero]
      rw [hcur]
      rw [if_neg (by rintro ⟨h1, h2⟩; exact absurd h2 (by decide))]
      rw [if_pos rfl]

/-- Witness for C10's amended theorem: both owner-read shapes at concrete
inputs, with no controlled accounts at all (so any authorization check would
have failed). -/
theorem setup_owner_clear_unowned_noop_witness :
    ENS.setup_owner envFalsyOwner "x.eth" .pyNone = .ok (none, [])
    ∧ ENS.setup_owner baseEnv "x.eth" .pyNone = .ok (some EMPTY_ADDR_HEX, []) :=
  ⟨(setup_owner_clear_unowned_noop envFalsyOwner "x.eth" .pyNone (Or.inl rfl)).1 (by decide),
   (setup_owner_clear_unowned_noop baseEnv "x.eth" .pyNone (Or.inl rfl)).2 (by decide)⟩

theorem wait_loop_ok (fetch : Nat → Except Unit TxReceipt) :
    ∀ (fuel k i : Nat) (r : TxReceipt), i < fuel → fetch (k + i) = .ok r →
      (∀ j, j < i → fetch (k + j) = .error ()) →
      Eth.wait_loop fetch k fuel = .ok r := by
  intro fuel
  induction fuel with
  | zero => intro k i r hi _ _; omega
  | succ f ih =>
    intro k i r hi hok hmiss
    cases i with
    | zero =>
      simp only [Eth.wait_loop]
      rw [show k + 0 = k from rfl] at hok
      rw [hok]
    | succ i' =>
      simp only [Eth.wait_loop]
      have h0 : fetch k = .error () := by
        have := hmiss 0 (by omega)
        rwa [show k + 0 = k from rfl] at this
      rw [h0]
      apply ih (k + 1) i' r (by omega)
      · rw [show k + 1 + i' = k + (i' + 1) from by omega]
        exact hok
      · intro j hj
        rw [show k + 1 + j = k + (j + 1) from by omega]
        exact hmiss (j + 1) (by omega)

theorem wait_loop_exhausted (fetch : Nat → Except Unit TxReceipt) :
    ∀ (fuel k : Nat), (∀ i, i < fuel → fetch (k + i) = .error ()) →
      Eth.wait_loop fetch k fuel
        = .error (.TimeExhausted "Transaction is not in the chain after the given timeout") := by
  intro fuel
  induction fuel with
  | zero => intro k _; rfl
  | succ f ih =>
    intro k hmiss
    simp only [Eth.wait_loop]
    have h0 : fetch k = .error () := by
      have := hmiss 0 (by omega)
      rwa [show k + 0 = k from rfl] at this
    rw [h0]
    apply ih (k + 1)
    intro i hi
    rw [show k + 1 + i = k + (i + 1) from by omega]
    exact hmiss (i + 1) (by omega)

/-- C8: `wait_for_transaction_receipt` is a bounded-timeout poll loop: a
not-found response counts as "not yet mined" and is never surfaced, the first
poll that finds the receipt returns it, a run in which every admitted poll
misses raises `TimeExhausted` — and the number of admitted polls is exactly
what the deadline allows: the polls fit under the timeout, and one more
fixed-latency sleep would exceed it. -/
theorem wait_for_receipt_poll_spec (fetch : Nat → Except Unit TxReceipt)
    (timeout poll_latency : ℚ) (hL : 0 < poll_latency) :
    (∀ i r, i < Eth.numPolls timeout poll_latency → fetch i = .ok r →
      (∀ j, j < i → fetch j = .error ()) →
      Eth.wait_for_transaction_receipt fetch timeout poll_latency = .ok r)
    ∧ ((∀ i, i < Eth.numPolls timeout poll_latency → fetch i = .error ()) →
      Eth.wait_for_transaction_receipt fetch timeout poll_latency
        = .error (.TimeExhausted "Transaction is not in the chain after the given timeout"))
    ∧ (0 ≤ timeout →
      timeout < (Eth.numPolls timeout poll_latency : ℚ) * poll_latency
      ∧ ((Eth.numPolls timeout poll_latency : ℚ) - 1) * poll_latency ≤ timeout) := by
  refine ⟨?_, ?_, ?_⟩
  · intro i r hi hok hmiss
    unfold Eth.wait_for_transaction_receipt
    apply wait_loop_ok fetch (Eth.numPolls timeout poll_latency) 0 i r hi
    · rwa [show 0 + i = i from by omega]
    · intro j hj
      rw [show 0 + j = j from by omega]
      exact hmiss j hj
  · intro hmiss
    unfold Eth.wait_for_transaction_receipt
    apply wait_loop_exhausted fetch (Eth.numPolls timeout poll_latency) 0
    intro i hi
    rw [show 0 + i = i from by omega]
    exact hmiss i hi
  · intro hT
    have hfloor0 : (0 : ℤ) ≤ ⌊timeout / poll_latency⌋ :=
      Int.floor_nonneg.mpr (div_nonneg hT hL.le)
    have hcast : ((Eth.numPolls timeout poll_latency : ℚ))
        = (⌊timeout / poll_latency⌋ : ℚ) + 1 := by
      unfold Eth.numPolls
      rw [if_neg (not_le.mpr hL)]
      rw [Nat.cast_add, Nat.cast_one]
      congr 1
      exact_mod_cast Int.toNat_of_nonneg hfloor0
    constructor
    · rw [hcast]
      have h1 : timeout / poll_latency < ⌊timeout / poll_latency⌋ + 1 :=
        Int.lt_floor_add_one _
      calc timeout = (timeout / poll_latency) * poll_latency := by field_simp
        _ < ((⌊timeout / poll_latency⌋ : ℚ) + 1) * poll_latency := by
            exact mul_lt_mul_of_pos_right h1 hL
    · rw [hcast]
      have h2 : (⌊timeout / poll_latency⌋ : ℚ) ≤ timeout / poll_latency :=
        Int.floor_le _
      have h3 : (⌊timeout / poll_latency⌋ : ℚ) * poll_latency ≤ timeout := by
        have h4 := mul_le_mul_of_nonneg_right h2 hL.le
        rwa [div_mul_cancel₀ timeout (ne_of_gt hL)] at h4
      calc ((⌊timeout / poll_latency⌋ : ℚ) + 1 - 1) * poll_latency
          = (⌊timeout / poll_latency⌋ : ℚ) * poll_latency := by ring
        _ ≤ timeout := h3

/-- A receipt source that misses on the first poll and is mined by the
second. -/
def fetchFoundAtOne : Nat → Except Unit TxReceipt :=
  fun k => if k = 1 then .ok "receipt" else .error ()

/-- Witness for C8: the receipt found on the second poll is returned; a
never-mined transaction under a zero timeout fails promptly with
`TimeExhausted`; and the zero deadline admits polls bounded by one poll
interval. -/
theorem wait_for_receipt_poll_spec_witness :
    Eth.wait_for_transaction_receipt fetchFoundAtOne 1 (1/2) = .ok "receipt"
    ∧ Eth.wait_for_transaction_receipt (fun _ => .error ()) 0 (1/10)
      = .error (.TimeExhausted "Transaction is not in the chain after the given timeout")
    ∧ ((0 : ℚ) < (Eth.numPolls 0 (1/10) : ℚ) * (1/10)
       ∧ ((Eth.numPolls 0 (1/10) : ℚ) - 1) * (1/10) ≤ 0) :=
  ⟨(wait_for_receipt_poll_spec fetchFoundAtOne 1 (1/2) (by norm_num)).1 1 "receipt"
      (by norm_num [Eth.numPolls])
      rfl
      (by intro j hj; have hj0 : j = 0 := by omega
          subst hj0; rfl),
   (wait_for_receipt_poll_spec (fun _ => .error ()) 0 (1/10) (by norm_num)).2.1
      (fun _ _ => rfl),
   (wait_for_receipt_poll_spec (fun _ => .error ()) 0 (1/10) (by norm_num)).2.2 (le_refl 0)⟩
